import Mathlib

/-!
Verification of the notification-dispatch functions of the
BF-Logistica/Transportes repository (src/functions/index.js), as a shallow
embedding in Lean.

Modelling conventions:
* A JavaScript string is modelled as a list of UTF-16 code units
  (`JStr := List Nat`); `codes` builds such a list from a Lean string
  literal, for concrete test values and for the literal fragments that the
  source interpolates into message bodies.
* `String.prototype.trim` is modelled by `jsTrim` (dropping whitespace code
  units from both ends) and `String.prototype.toLowerCase` by `jsToLower`
  (ASCII case folding, which is what the code relies on for the A-Z range of
  email addresses).
* Request fields that may be absent (`undefined`) are `Option` values; the
  fields that the code branches on with JavaScript truthiness use `none`
  and the empty string as the falsy cases.
* The fields `esDomingo` and `recolectaCaja` are interpolated by the source
  without any string coercion, so they are modelled as a JavaScript value
  (`JsVal`) that can be `undefined`, a boolean or a string, with the
  template-literal coercion `jsToString`.
* The external world (SendGrid configuration and acceptance, the Firestore
  `UsuarioAdmin` collection, the bundled PDF document) is a `World` record;
  a handler is a pure function of the request and the world, returning the
  HTTP response it produces, the message it passed to the delivery call (if
  a delivery call was made) and whether it issued the Firestore query.
-/

namespace Transportes

/-- A JavaScript string, as its list of UTF-16 code units. -/
abbrev JStr := List Nat

/-- Code units of a Lean string literal, used for concrete values. -/
def codes (s : String) : JStr := s.toList.map Char.toNat

/-- Whitespace code units removed by `String.prototype.trim` (tab, line
feed, vertical tab, form feed, carriage return, space, no-break space,
line separator, paragraph separator, byte order mark). -/
def isWhiteCode (c : Nat) : Bool :=
  c == 9 || c == 10 || c == 11 || c == 12 || c == 13 || c == 32 || c == 160 ||
    c == 8232 || c == 8233 || c == 65279

/-- ASCII case folding of one code unit, as used by `toLowerCase` on the
code-unit range the addresses rely on. -/
def lowerCode (c : Nat) : Nat := if 65 ≤ c ∧ c ≤ 90 then c + 32 else c

/-- Leading-whitespace removal. -/
def ltrim (l : JStr) : JStr := l.dropWhile isWhiteCode

/-- Trailing-whitespace removal. -/
def rtrim (l : JStr) : JStr := (l.reverse.dropWhile isWhiteCode).reverse

/-- `String.prototype.trim`. -/
def jsTrim (l : JStr) : JStr := rtrim (ltrim l)

/-- `String.prototype.toLowerCase`. -/
def jsToLower (l : JStr) : JStr := l.map lowerCode

/-- `normalizeEmail` (index.js lines 43-46): falsy input (absent field or
empty string) yields the empty string, otherwise trim then lower-case. -/
def normalizeEmail : Option JStr → JStr
  | none => []
  | some e => jsToLower (jsTrim e)

/-- JS truthiness of a string field that may be absent. -/
def truthyStr (o : Option JStr) : Bool := !(o.getD []).isEmpty

/-- Spread of a JS `Set` built from a list: deduplication keeping the first
occurrence of each value (JS `Set` iterates in insertion order).
`seen` accumulates the values already emitted. -/
def dedupAux [DecidableEq α] (seen : List α) : List α → List α
  | [] => []
  | a :: t => if a ∈ seen then dedupAux seen t else a :: dedupAux (a :: seen) t

/-- `[...new Set(l)]`. -/
def jsSetDedup [DecidableEq α] (l : List α) : List α := dedupAux [] l

/-- A JavaScript value as far as the interpolated appointment flags need:
absent, boolean, or string. -/
inductive JsVal where
  | undef : JsVal
  | jbool : Bool → JsVal
  | jstr : JStr → JsVal
deriving DecidableEq

/-- JS truthiness of a `JsVal`. -/
def jsTruthy : JsVal → Bool
  | .undef => false
  | .jbool b => b
  | .jstr s => !s.isEmpty

/-- Template-literal coercion of a `JsVal` to a string. -/
def jsToString : JsVal → JStr
  | .undef => codes "undefined"
  | .jbool true => codes "true"
  | .jbool false => codes "false"
  | .jstr s => s

/-- JS `a || b` on values. -/
def jsOr (a b : JsVal) : JsVal := if jsTruthy a then a else b

/-- `String.prototype.replace` with a global single-character pattern:
every occurrence of the code unit `p` is replaced by `rep`. -/
def replaceAll (p : Nat) (rep : JStr) : JStr → JStr
  | [] => []
  | c :: t => if c = p then rep ++ replaceAll p rep t else c :: replaceAll p rep t

/-- One document of the Firestore `UsuarioAdmin` collection. -/
structure AdminRecord where
  id : Nat
  correo : Option JStr
deriving DecidableEq

/-- `admin.firestore().collection("UsuarioAdmin").where("id", "in", [1, 2])`:
the directory query filtered to the fixed role-id set. -/
def queryAdmins (store : List AdminRecord) : List AdminRecord :=
  store.filter (fun r => r.id == 1 || r.id == 2)

/-- Normalized, blank-dropped addresses obtained from the directory query
(`adminsSnapshot.docs.map((doc) => normalizeEmail(doc.data()?.correo)).filter(Boolean)`). -/
def directoryAdminEmails (store : List AdminRecord) : List JStr :=
  ((queryAdmins store).map (fun d => normalizeEmail d.correo)).filter
    (fun e => !e.isEmpty)

/-- Normalized, blank-dropped addresses from the caller-supplied list
(`Array.isArray(adminEmailsFromClient) ? adminEmailsFromClient.map(normalizeEmail).filter(Boolean) : []`);
`none` covers an absent or non-array field. -/
def clientAdminEmails : Option (List JStr) → List JStr
  | some l => (l.map (fun e => normalizeEmail (some e))).filter (fun e => !e.isEmpty)
  | none => []

/-- The external collaborators of one request: delivery-provider
configuration and acceptance, the administrator directory, whether the
directory query throws, and the bundled PDF bytes (`none` when
`fs.readFileSync` throws). -/
structure World where
  sendgridConfigured : Bool
  adminStore : List AdminRecord
  dirQueryFails : Bool
  pdfRead : Option (List Nat)
  providerAccepts : Bool
deriving DecidableEq

/-- The JSON body and status code a handler responds with. -/
structure JsonResp where
  status : Nat
  success : Bool
  message : String
deriving DecidableEq

/-- One SendGrid attachment: base64 content text, filename, MIME type. -/
structure Attachment where
  content : JStr
  filename : JStr
  mimeType : String
deriving DecidableEq

/-- Observable outcome of one handler invocation: the HTTP response, the
message handed to `sgMail.send` (`none` when no delivery call was made),
and whether the Firestore directory query was issued. -/
structure HandlerOut (M : Type) where
  resp : JsonResp
  sent : Option M
  directoryQueried : Bool
deriving DecidableEq

/-- Base64 alphabet, as code units. -/
def b64Char (n : Nat) : Nat :=
  if n < 26 then 65 + n
  else if n < 52 then 97 + (n - 26)
  else if n < 62 then 48 + (n - 52)
  else if n = 62 then 43 else 47

/-- `Buffer.prototype.toString("base64")`. -/
def base64Encode : List Nat → JStr
  | [] => []
  | [a] => [b64Char (a / 4), b64Char (a % 4 * 16), 61, 61]
  | [a, b] => [b64Char (a / 4), b64Char (a % 4 * 16 + b / 16), b64Char (b % 16 * 4), 61]
  | a :: b :: c :: t =>
    [b64Char (a / 4), b64Char (a % 4 * 16 + b / 16), b64Char (b % 16 * 4 + c / 64),
      b64Char (c % 64)] ++ base64Encode t

/-! ### Flow 1: sendNewProviderEmail (index.js lines 52-211) -/

/-- The `providerData` object required by the new-provider flow. -/
structure ProviderData where
  linea : Option JStr
  razon : Option JStr
  direccionFiscal : Option JStr
  direccionPatios : Option JStr
  frontera : Option JStr
  telefonoContacto : Option JStr
deriving DecidableEq

/-- Request body of the new-provider flow. -/
structure NewProviderReq where
  providerId : Option JStr
  providerEmail : Option JStr
  adminEmails : Option (List JStr)
  zipBase64 : Option JStr
  zipName : Option JStr
  providerData : Option ProviderData
deriving DecidableEq

/-- Message submitted to SendGrid by the new-provider flow (the fields the
claims observe: recipient array and attachment list). -/
structure NewProviderMsg where
  toAddr : List JStr
  attachments : List Attachment
deriving DecidableEq

/-- Recipient resolution of the new-provider flow (index.js lines 100-118):
explicit client list if non-empty after normalization, otherwise the
directory query; the result is deduplicated in both cases. -/
def newProviderResolved (w : World) (r : NewProviderReq) : List JStr :=
  if (clientAdminEmails r.adminEmails).isEmpty then
    jsSetDedup (directoryAdminEmails w.adminStore)
  else
    jsSetDedup (clientAdminEmails r.adminEmails)

/-- ZIP attachment of the new-provider flow (index.js lines 150-158):
attached exactly when both `zipBase64` and `zipName` are truthy. -/
def newProviderAttachments (r : NewProviderReq) : List Attachment :=
  if truthyStr r.zipBase64 && truthyStr r.zipName then
    [⟨r.zipBase64.getD [], r.zipName.getD [], "application/zip"⟩]
  else []

/-- The `sendNewProviderEmail` handler (index.js lines 52-211). The
Firestore query is issued exactly when the client list is empty after
normalization; a query failure there is not caught locally and lands in
the outer catch block (HTTP 500 generic message). -/
def sendNewProviderEmail (w : World) (r : NewProviderReq) : HandlerOut NewProviderMsg :=
  if !w.sendgridConfigured then
    ⟨⟨500, false, "SendGrid no está configurado en el servidor."⟩, none, false⟩
  else if r.providerData.isNone then
    ⟨⟨400, false, "Faltan los datos del proveedor."⟩, none, false⟩
  else if (clientAdminEmails r.adminEmails).isEmpty && w.dirQueryFails then
    ⟨⟨500, false, "Ocurrió un error al enviar el correo."⟩, none, true⟩
  else if (newProviderResolved w r).isEmpty then
    ⟨⟨500, false, "Los administradores no tienen correo configurado."⟩, none,
      (clientAdminEmails r.adminEmails).isEmpty⟩
  else if w.providerAccepts then
    ⟨⟨200, true, "Correo enviado correctamente a los administradores."⟩,
      some ⟨newProviderResolved w r, newProviderAttachments r⟩,
      (clientAdminEmails r.adminEmails).isEmpty⟩
  else
    ⟨⟨500, false, "Ocurrió un error al enviar el correo."⟩,
      some ⟨newProviderResolved w r, newProviderAttachments r⟩,
      (clientAdminEmails r.adminEmails).isEmpty⟩

/-! ### Flow 2: sendAccessCredentials (index.js lines 217-323) -/

/-- Request body of the access-credentials flow. -/
structure CredReq where
  toAddr : Option JStr
  usuario : Option JStr
  contrasena : Option JStr
  rol : Option JStr
deriving DecidableEq

/-- `rolFinal` (index.js lines 250-252): trimmed role, with the literal
fallback "Usuario" when absent or blank. -/
def rolFinal (rol : Option JStr) : JStr :=
  if (jsTrim (rol.getD [])).isEmpty then codes "Usuario" else jsTrim (rol.getD [])

/-- HTML body of the credentials message (index.js lines 267-276). -/
def credHtmlBody (usuarioFinal passFinal rf : JStr) : JStr :=
  codes "\n      <h2>Acceso al sistema de Control de Transportes BMM</h2>\n      <p>Tu usuario ha sido aprobado. Estas son tus credenciales de acceso:</p>\n      <ul>\n        <li><strong>Usuario:</strong> " ++
    usuarioFinal ++
    codes "</li>\n        <li><strong>Contraseña:</strong> " ++
    passFinal ++
    codes "</li>\n        <li><strong>Rol:</strong> " ++
    rf ++
    codes "</li>\n      </ul>\n      <p>Por favor ingresa al sistema con estas credenciales.</p>\n    "

/-- Message submitted to SendGrid by the credentials flow. -/
structure CredMsg where
  toAddr : JStr
  html : JStr
deriving DecidableEq

/-- The `sendAccessCredentials` handler (index.js lines 217-323):
validates the normalized `to`, then trimmed `usuario`/`contrasena`, and
sends to the single normalized recipient. -/
def sendAccessCredentials (w : World) (r : CredReq) : HandlerOut CredMsg :=
  if !w.sendgridConfigured then
    ⟨⟨500, false, "SendGrid no está configurado en el servidor."⟩, none, false⟩
  else if (normalizeEmail r.toAddr).isEmpty then
    ⟨⟨400, false, "Falta el correo del usuario."⟩, none, false⟩
  else if (jsTrim (r.usuario.getD [])).isEmpty || (jsTrim (r.contrasena.getD [])).isEmpty then
    ⟨⟨400, false, "Faltan usuario o contraseña."⟩, none, false⟩
  else if w.providerAccepts then
    ⟨⟨200, true, "Correo de credenciales enviado correctamente."⟩,
      some ⟨normalizeEmail r.toAddr,
        credHtmlBody (jsTrim (r.usuario.getD [])) (jsTrim (r.contrasena.getD []))
          (rolFinal r.rol)⟩, false⟩
  else
    ⟨⟨500, false, "Ocurrió un error al enviar el correo."⟩,
      some ⟨normalizeEmail r.toAddr,
        credHtmlBody (jsTrim (r.usuario.getD [])) (jsTrim (r.contrasena.getD []))
          (rolFinal r.rol)⟩, false⟩

/-! ### Flow 3: sendAppointmentNotification (index.js lines 329-504) -/

/-- The `cita` object of the appointment pre-registration flow. -/
structure Cita where
  fecha : Option JStr
  hora : Option JStr
  horaExtra : Option JStr
  tipoVisita : Option JStr
  tipoTransporte : Option JStr
  destino : Option JStr
  chofer : Option JStr
  lineaTransporte : Option JStr
  placas : Option JStr
  factura : Option JStr
  caja : Option JStr
  sello : Option JStr
  recolectaCaja : JsVal
  cajaDeja : Option JStr
  cajaRecolecta : Option JStr
  notas : Option JStr
  esDomingo : JsVal
deriving DecidableEq

/-- Request body of the appointment pre-registration flow. -/
structure ApptReq where
  providerEmail : Option JStr
  providerLinea : Option JStr
  providerRazon : Option JStr
  providerFrontera : Option JStr
  citaId : Option JStr
  cita : Option Cita
deriving DecidableEq

/-- Rendering of the comments slot of the pre-registration HTML body
(index.js line 451): every left angle bracket of the notes is replaced by
the escape "&lt;", and a blank result falls back to the dash placeholder. -/
def preRegNotesHtml (notas : Option JStr) : JStr :=
  if (replaceAll 60 (codes "&lt;") (notas.getD [])).isEmpty then codes "-"
  else replaceAll 60 (codes "&lt;") (notas.getD [])

/-- Rendering of the `recolectaCaja` slot of the pre-registration HTML body
(index.js line 445): the raw value when truthy, the literal "No" otherwise. -/
def preRegRecolectaSlot (v : JsVal) : JStr := jsToString (jsOr v (.jstr (codes "No")))

/-- Rendering of the `esDomingo` slot (index.js line 448). -/
def esDomingoSlot (v : JsVal) : JStr :=
  if jsTruthy v then codes "Sí, requiere aprobación especial" else codes "No"

/-- Recipient resolution of the pre-registration flow (index.js lines
366-387): the normalized provider address unioned with the directory
results (empty when the query failed), blanks dropped, deduplicated. -/
def appointmentResolved (providerEmail : Option JStr) (store : List AdminRecord)
    (dirFails : Bool) : List JStr :=
  jsSetDedup
    ((normalizeEmail providerEmail ::
        (if dirFails then [] else directoryAdminEmails store)).filter
      (fun e => !e.isEmpty))

/-- Message submitted to SendGrid by the pre-registration flow: recipient
array and the rendered slots of the HTML body that the claims observe.
The message has no plain-text body in the source. -/
structure ApptMsg where
  toAddr : List JStr
  htmlNotas : JStr
  htmlRecolecta : JStr
  htmlEsDomingo : JStr
deriving DecidableEq

/-- The message the pre-registration flow hands to the delivery call. -/
def apptMsgOf (w : World) (r : ApptReq) (c : Cita) : ApptMsg :=
  ⟨appointmentResolved r.providerEmail w.adminStore w.dirQueryFails,
    preRegNotesHtml c.notas, preRegRecolectaSlot c.recolectaCaja,
    esDomingoSlot c.esDomingo⟩

/-- The `sendAppointmentNotification` handler (index.js lines 329-504). The
directory query is wrapped in its own try/catch, so a query failure leaves
the admin list empty and the request proceeds. -/
def sendAppointmentNotification (w : World) (r : ApptReq) : HandlerOut ApptMsg :=
  if !w.sendgridConfigured then
    ⟨⟨500, false, "SendGrid no está configurado en el servidor."⟩, none, false⟩
  else
    match r.cita with
    | none => ⟨⟨400, false, "Faltan datos para enviar la confirmación de cita."⟩, none, false⟩
    | some c =>
      if !(truthyStr r.providerEmail && truthyStr c.fecha && truthyStr c.hora) then
        ⟨⟨400, false, "Faltan datos para enviar la confirmación de cita."⟩, none, false⟩
      else if (appointmentResolved r.providerEmail w.adminStore w.dirQueryFails).isEmpty then
        ⟨⟨500, false, "No se encontraron correos configurados para notificar la cita."⟩,
          none, true⟩
      else if w.providerAccepts then
        ⟨⟨200, true, "Notificación de cita enviada correctamente."⟩, some (apptMsgOf w r c), true⟩
      else
        ⟨⟨500, false, "Ocurrió un error al enviar la notificación de cita."⟩,
          some (apptMsgOf w r c), true⟩

/-! ### Flow 4: sendCitaConfirmacion (index.js lines 510-705) -/

/-- The `datosCita` object of the confirmation flow. -/
structure DatosCita where
  linea : Option JStr
  placas : Option JStr
  tipoTransporte : Option JStr
  tipoVisita : Option JStr
  fecha : Option JStr
  hora : Option JStr
  horaExtra : Option JStr
  chofer : Option JStr
  destino : Option JStr
  factura : Option JStr
  notas : Option JStr
  frontera : Option JStr
  recolectaCaja : JsVal
deriving DecidableEq

/-- Request body of the confirmation flow. -/
structure ConfirmReq where
  toAddr : Option JStr
  folio : Option JStr
  citaId : Option JStr
  datosCita : Option DatosCita
deriving DecidableEq

/-- Rendering of the notes slot of the confirmation plain-text body
(index.js line 582): the raw notes, dash placeholder when falsy. -/
def confirmNotesText (notas : Option JStr) : JStr :=
  if (notas.getD []).isEmpty then codes "-" else notas.getD []

/-- Rendering of the notes slot of the confirmation HTML body (index.js
lines 614-616): newlines become "<br>" when the notes are truthy, dash
placeholder otherwise; no angle-bracket escaping is applied. -/
def confirmNotesHtml : Option JStr → JStr
  | none => codes "-"
  | some n =>
    if n.isEmpty then codes "-"
    else if (replaceAll 10 (codes "<br>") n).isEmpty then codes "-"
    else replaceAll 10 (codes "<br>") n

/-- Rendering of the `recolectaCaja` slot of both confirmation bodies
(index.js lines 581 and 613): the raw value when truthy, dash otherwise. -/
def confirmRecolectaSlot (v : JsVal) : JStr := jsToString (jsOr v (.jstr (codes "-")))

/-- Subject of the confirmation message (index.js line 562). -/
def confirmSubject (folio : JStr) : JStr :=
  codes "Confirmación de cita de transporte - Folio " ++ folio

/-- PDF attachment of the confirmation flow (index.js lines 630-656): the
bundled document base64-encoded, or nothing when the read throws. -/
def confirmAttachments (pdfRead : Option (List Nat)) : List Attachment :=
  match pdfRead with
  | some bytes =>
    [⟨base64Encode bytes, codes "Indicaciones de ingreso a transportistas.pdf",
      "application/pdf"⟩]
  | none => []

/-- Message submitted to SendGrid by the confirmation flow. `attachments?`
is `none` when the `attachments` key is absent from the message object
(index.js line 667 spreads the key only when the list is non-empty). -/
structure ConfirmMsg where
  toAddr : JStr
  subject : JStr
  textNotas : JStr
  htmlNotas : JStr
  htmlRecolecta : JStr
  attachments? : Option (List Attachment)
deriving DecidableEq

/-- The message the confirmation flow hands to the delivery call. -/
def confirmMsgOf (w : World) (r : ConfirmReq) (d : DatosCita) : ConfirmMsg :=
  ⟨normalizeEmail r.toAddr,
    confirmSubject (r.folio.getD []),
    confirmNotesText d.notas,
    confirmNotesHtml d.notas,
    confirmRecolectaSlot d.recolectaCaja,
    if (confirmAttachments w.pdfRead).isEmpty then none
    else some (confirmAttachments w.pdfRead)⟩

/-- The `sendCitaConfirmacion` handler (index.js lines 510-705): validates
the raw `to`, `folio` and `datosCita` fields, then always attempts the
delivery call (a PDF read failure only drops the attachment). -/
def sendCitaConfirmacion (w : World) (r : ConfirmReq) : HandlerOut ConfirmMsg :=
  if !w.sendgridConfigured then
    ⟨⟨500, false, "SendGrid no está configurado en el servidor."⟩, none, false⟩
  else
    match r.datosCita with
    | none =>
      ⟨⟨400, false, "Faltan parámetros obligatorios (to, folio, datosCita)."⟩, none, false⟩
    | some d =>
      if !(truthyStr r.toAddr && truthyStr r.folio) then
        ⟨⟨400, false, "Faltan parámetros obligatorios (to, folio, datosCita)."⟩, none, false⟩
      else if w.providerAccepts then
        ⟨⟨200, true, "Correo de confirmación de cita enviado correctamente."⟩,
          some (confirmMsgOf w r d), false⟩
      else
        ⟨⟨500, false, "Ocurrió un error al enviar la confirmación de cita."⟩,
          some (confirmMsgOf w r d), false⟩

/-! ### Helper lemmas: trimming and case folding -/

theorem dropWhile_self (p : α → Bool) : ∀ l : List α, (l.dropWhile p).dropWhile p = l.dropWhile p
  | [] => rfl
  | a :: t => by
    by_cases h : p a
    · simp [List.dropWhile_cons, h, dropWhile_self p t]
    · simp [List.dropWhile_cons, h]

theorem length_dropWhile_le (p : α → Bool) : ∀ l : List α, (l.dropWhile p).length ≤ l.length
  | [] => Nat.le_refl _
  | a :: t => by
    by_cases h : p a
    · simp only [List.dropWhile_cons, h, if_true]
      exact Nat.le_trans (length_dropWhile_le p t) (Nat.le_succ _)
    · simp [List.dropWhile_cons, h]

theorem ltrim_ltrim (l : JStr) : ltrim (ltrim l) = ltrim l := dropWhile_self _ l

theorem rtrim_rtrim (l : JStr) : rtrim (rtrim l) = rtrim l := by
  simp [rtrim, List.reverse_reverse, dropWhile_self]

/-- If a list is already left-trimmed, right-trimming keeps it left-trimmed. -/
theorem ltrim_rtrim_of_fix (l : JStr) (h : ltrim l = l) : ltrim (rtrim l) = rtrim l := by
  cases l with
  | nil => rfl
  | cons a t =>
    have ha : isWhiteCode a = false := by
      by_contra hc
      have ha' : isWhiteCode a = true := by
        cases hw : isWhiteCode a
        · exact absurd hw hc
        · rfl
      have h1 : ltrim (a :: t) = ltrim t := by
        simp [ltrim, List.dropWhile_cons, ha']
      have h2 : (ltrim t).length ≤ t.length := length_dropWhile_le _ t
      have h3 : (ltrim (a :: t)).length = t.length + 1 := by rw [h]; rfl
      rw [h1] at h3
      omega
    show ltrim ((((a :: t).reverse).dropWhile isWhiteCode).reverse) = rtrim (a :: t)
    rw [List.reverse_cons, List.dropWhile_append]
    by_cases he : ((t.reverse).dropWhile isWhiteCode).isEmpty
    · simp only [he, if_true]
      simp [ltrim, rtrim, List.reverse_cons, List.dropWhile_append, he,
        List.dropWhile_cons, ha]
    · rw [if_neg he, List.reverse_append, List.reverse_singleton, List.singleton_append]
      have hr : rtrim (a :: t) = a :: ((t.reverse).dropWhile isWhiteCode).reverse := by
        rw [rtrim, List.reverse_cons, List.dropWhile_append, if_neg he,
          List.reverse_append, List.reverse_singleton, List.singleton_append]
      rw [hr]
      simp [ltrim, List.dropWhile_cons, ha]

theorem jsTrim_jsTrim (l : JStr) : jsTrim (jsTrim l) = jsTrim l := by
  unfold jsTrim
  rw [ltrim_rtrim_of_fix (ltrim l) (ltrim_ltrim l), rtrim_rtrim]

theorem isWhite_lower (c : Nat) : isWhiteCode (lowerCode c) = isWhiteCode c := by
  unfold lowerCode
  split
  · next h =>
    have h1 : isWhiteCode (c + 32) = false := by
      simp only [isWhiteCode, Bool.or_eq_false_iff, beq_eq_false_iff_ne, ne_eq]
      omega
    have h2 : isWhiteCode c = false := by
      simp only [isWhiteCode, Bool.or_eq_false_iff, beq_eq_false_iff_ne, ne_eq]
      omega
    rw [h1, h2]
  · rfl

theorem lower_lower (c : Nat) : lowerCode (lowerCode c) = lowerCode c := by
  unfold lowerCode
  split
  · next h =>
    rw [if_neg]
    omega
  · rfl

theorem jsToLower_jsToLower (l : JStr) : jsToLower (jsToLower l) = jsToLower l := by
  simp only [jsToLower, List.map_map]
  exact List.map_congr_left fun c _ => lower_lower c

theorem isWhite_comp_lower : (isWhiteCode ∘ lowerCode) = isWhiteCode :=
  funext isWhite_lower

theorem ltrim_jsToLower (l : JStr) : ltrim (jsToLower l) = jsToLower (ltrim l) := by
  simp only [ltrim, jsToLower]
  rw [List.dropWhile_map, isWhite_comp_lower]

theorem rtrim_jsToLower (l : JStr) : rtrim (jsToLower l) = jsToLower (rtrim l) := by
  simp only [rtrim, jsToLower]
  rw [← List.map_reverse, List.dropWhile_map, isWhite_comp_lower, List.map_reverse]

theorem jsTrim_jsToLower (l : JStr) : jsTrim (jsToLower l) = jsToLower (jsTrim l) := by
  simp only [jsTrim, ltrim_jsToLower, rtrim_jsToLower]

/-- Normalization is a projection: normalizing an already-normalized
address changes nothing. -/
theorem normalizeEmail_fix (o : Option JStr) :
    normalizeEmail (some (normalizeEmail o)) = normalizeEmail o := by
  cases o with
  | none => rfl
  | some x =>
    show jsToLower (jsTrim (jsToLower (jsTrim x))) = jsToLower (jsTrim x)
    rw [jsTrim_jsToLower, jsTrim_jsTrim, jsToLower_jsToLower]

/-! ### Helper lemmas: JS Set deduplication -/

theorem mem_dedupAux [DecidableEq α] (x : α) :
    ∀ (l seen : List α), x ∈ dedupAux seen l ↔ x ∈ l ∧ x ∉ seen := by
  intro l
  induction l with
  | nil => intro seen; simp [dedupAux]
  | cons a t ih =>
    intro seen
    by_cases h : a ∈ seen
    · rw [dedupAux, if_pos h, ih seen]
      constructor
      · exact fun hx => ⟨List.mem_cons_of_mem _ hx.1, hx.2⟩
      · rintro ⟨hx, hn⟩
        rcases List.mem_cons.mp hx with rfl | hx2
        · exact absurd h hn
        · exact ⟨hx2, hn⟩
    · rw [dedupAux, if_neg h, List.mem_cons, List.mem_cons, ih (a :: seen)]
      constructor
      · rintro (rfl | ⟨hx, hn⟩)
        · exact ⟨Or.inl rfl, h⟩
        · exact ⟨Or.inr hx, fun hs => hn (List.mem_cons_of_mem _ hs)⟩
      · rintro ⟨rfl | hx, hn⟩
        · exact Or.inl rfl
        · by_cases hxa : x = a
          · exact Or.inl hxa
          · exact Or.inr ⟨hx, by
              intro hs
              rcases List.mem_cons.mp hs with h1 | h2
              · exact hxa h1
              · exact hn h2⟩

theorem mem_jsSetDedup [DecidableEq α] (x : α) (l : List α) :
    x ∈ jsSetDedup l ↔ x ∈ l := by
  rw [jsSetDedup, mem_dedupAux]
  simp

theorem nodup_dedupAux [DecidableEq α] :
    ∀ (l seen : List α), (dedupAux seen l).Nodup := by
  intro l
  induction l with
  | nil => intro seen; simp [dedupAux]
  | cons a t ih =>
    intro seen
    by_cases h : a ∈ seen
    · rw [dedupAux, if_pos h]; exact ih seen
    · rw [dedupAux, if_neg h]
      refine List.nodup_cons.mpr ⟨?_, ih (a :: seen)⟩
      intro hmem
      exact ((mem_dedupAux a t (a :: seen)).mp hmem).2 (List.mem_cons_self a seen)

theorem nodup_jsSetDedup [DecidableEq α] (l : List α) : (jsSetDedup l).Nodup :=
  nodup_dedupAux l []

theorem dedupAux_const [DecidableEq α] (e : α) :
    ∀ (l seen : List α), (∀ a ∈ l, a = e) → e ∈ seen → dedupAux seen l = [] := by
  intro l
  induction l with
  | nil => intro seen _ _; rfl
  | cons a t ih =>
    intro seen hall hseen
    have ha : a = e := hall a (List.mem_cons_self a t)
    subst ha
    rw [dedupAux, if_pos hseen]
    exact ih seen (fun x hx => hall x (List.mem_cons_of_mem _ hx)) hseen

/-- Deduplicating a non-empty list of copies of one value yields the
singleton of that value. -/
theorem jsSetDedup_const [DecidableEq α] (l : List α) (e : α) (h : l ≠ [])
    (h2 : ∀ a ∈ l, a = e) : jsSetDedup l = [e] := by
  cases l with
  | nil => exact absurd rfl h
  | cons a t =>
    have ha : a = e := h2 a (List.mem_cons_self a t)
    subst ha
    rw [jsSetDedup, dedupAux, if_neg (List.not_mem_nil a)]
    rw [dedupAux_const a t (a :: []) (fun x hx => h2 x (List.mem_cons_of_mem _ hx))
      (List.mem_cons_self a [])]

/-! ### Helper lemmas: single-character global replace -/

theorem not_mem_replaceAll (p : Nat) (rep : JStr) (hrep : p ∉ rep) :
    ∀ l : JStr, p ∉ replaceAll p rep l := by
  intro l
  induction l with
  | nil => simp [replaceAll]
  | cons c t ih =>
    by_cases h : c = p
    · rw [replaceAll, if_pos h]
      intro hmem
      rcases List.mem_append.mp hmem with h1 | h2
      · exact hrep h1
      · exact ih h2
    · rw [replaceAll, if_neg h]
      intro hmem
      rcases List.mem_cons.mp hmem with h1 | h2
      · exact h h1.symm
      · exact ih h2

theorem count_replaceAll (p : Nat) (rep : JStr) (c : Nat) (hc : c ≠ p) (hr : c ∉ rep) :
    ∀ l : JStr, (replaceAll p rep l).count c = l.count c := by
  intro l
  induction l with
  | nil => rfl
  | cons a t ih =>
    by_cases h : a = p
    · subst h
      rw [replaceAll, if_pos rfl, List.count_append,
        List.count_eq_zero.mpr hr, Nat.zero_add, ih,
        List.count_cons_of_ne hc]
    · rw [replaceAll, if_neg h, List.count_cons, List.count_cons, ih]

theorem replaceAll_ne_nil (p : Nat) (rep : JStr) (hrep : rep ≠ []) :
    ∀ l : JStr, l ≠ [] → replaceAll p rep l ≠ [] := by
  intro l
  induction l with
  | nil => intro h; exact absurd rfl h
  | cons a t _ =>
    intro _
    by_cases h : a = p
    · rw [replaceAll, if_pos h]
      intro hc
      exact hrep (List.append_eq_nil.mp hc).1
    · rw [replaceAll, if_neg h]
      exact List.cons_ne_nil a _

/-! ### Helper lemmas: emptiness bridging and membership -/

theorem bnot_isEmpty_iff (l : List α) : (!l.isEmpty) = true ↔ l ≠ [] := by
  cases l <;> simp

theorem isEmpty_false_of_ne_nil {l : List α} (h : l ≠ []) : l.isEmpty = false := by
  cases l <;> simp_all

theorem isEmpty_true_of_eq_nil {l : List α} (h : l = []) : l.isEmpty = true := by
  subst h; rfl

theorem mem_clientAdminEmails {a : JStr} {o : Option (List JStr)}
    (h : a ∈ clientAdminEmails o) : normalizeEmail (some a) = a ∧ a ≠ [] := by
  cases o with
  | none => simp [clientAdminEmails] at h
  | some l =>
    rw [clientAdminEmails] at h
    obtain ⟨hm, hp⟩ := List.mem_filter.mp h
    obtain ⟨x, _, rfl⟩ := List.mem_map.mp hm
    exact ⟨normalizeEmail_fix (some x), (bnot_isEmpty_iff _).mp hp⟩

theorem mem_directoryAdminEmails {a : JStr} {store : List AdminRecord}
    (h : a ∈ directoryAdminEmails store) : normalizeEmail (some a) = a ∧ a ≠ [] := by
  rw [directoryAdminEmails] at h
  obtain ⟨hm, hp⟩ := List.mem_filter.mp h
  obtain ⟨d, _, rfl⟩ := List.mem_map.mp hm
  exact ⟨normalizeEmail_fix d.correo, (bnot_isEmpty_iff _).mp hp⟩

theorem mem_newProviderResolved {a : JStr} {w : World} {r : NewProviderReq}
    (h : a ∈ newProviderResolved w r) : normalizeEmail (some a) = a ∧ a ≠ [] := by
  rw [newProviderResolved] at h
  by_cases hc : (clientAdminEmails r.adminEmails).isEmpty
  · rw [if_pos hc, mem_jsSetDedup] at h
    exact mem_directoryAdminEmails h
  · rw [if_neg hc, mem_jsSetDedup] at h
    exact mem_clientAdminEmails h

theorem mem_appointmentResolved {a : JStr} {pe : Option JStr} {store : List AdminRecord}
    {df : Bool} (h : a ∈ appointmentResolved pe store df) :
    normalizeEmail (some a) = a ∧ a ≠ [] := by
  rw [appointmentResolved, mem_jsSetDedup] at h
  obtain ⟨hm, hp⟩ := List.mem_filter.mp h
  have hne : a ≠ [] := (bnot_isEmpty_iff _).mp hp
  rcases List.mem_cons.mp hm with rfl | hd
  · exact ⟨normalizeEmail_fix pe, hne⟩
  · by_cases hdf : df
    · simp [hdf] at hd
    · simp only [hdf, if_false] at hd
      exact ⟨(mem_directoryAdminEmails hd).1, hne⟩

/-- The Firestore role filter, restated with the role-id set of the spec. -/
theorem queryAdmins_eq_role_set (store : List AdminRecord) :
    queryAdmins store = store.filter (fun a => decide (a.id = 1 ∨ a.id = 2)) := by
  unfold queryAdmins
  apply List.filter_congr
  intro x _
  by_cases h1 : x.id = 1 <;> by_cases h2 : x.id = 2 <;> simp [h1, h2]

/-! ### Concrete fixtures used by the witnesses -/

/-- An administrator directory with two configured roles (one of them with
a padded, mixed-case address, one without an address) and a bystander. -/
def storeEx : List AdminRecord :=
  [⟨1, some (codes " Admin1@BMM.mx ")⟩, ⟨2, none⟩, ⟨5, some (codes "other@bmm.mx")⟩]

/-- A world where everything external works. -/
def wOk : World := ⟨true, storeEx, false, some [37, 80, 68, 70], true⟩

/-- A world where the directory query throws. -/
def wDirFail : World := ⟨true, storeEx, true, some [37, 80, 68, 70], true⟩

/-- A world where reading the bundled PDF throws. -/
def wNoPdf : World := ⟨true, storeEx, false, none, true⟩

/-- Provider data with every display field absent. -/
def provDataEx : ProviderData := ⟨none, none, none, none, none, none⟩

/-- Appointment data with the required fields present. -/
def citaEx : Cita :=
  ⟨some (codes "2025-01-10"), some (codes "10:00"), none, none, none, none, none,
    none, none, none, none, none, .jstr (codes "Sí"), none, none,
    some (codes "nota"), .jbool false⟩

/-- Confirmation data with only notes set. -/
def datosCitaEx : DatosCita :=
  ⟨none, none, none, none, some (codes "2025-01-10"), some (codes "10:00"), none,
    none, none, none, some (codes "linea <a>\nsegunda"), none, .jstr (codes "Sí")⟩

/-! ### Claim theorems -/

/-- Claim C9: address normalization is idempotent, and normalizing any
non-empty collection of spellings of one address and deduplicating yields
exactly that one address. -/
theorem normalizeEmail_idempotent :
    (∀ x : JStr, normalizeEmail (some (normalizeEmail (some x))) = normalizeEmail (some x)) ∧
    (∀ (l : List JStr) (e : JStr), l ≠ [] →
      (∀ a ∈ l, normalizeEmail (some a) = e) →
      jsSetDedup (l.map (fun a => normalizeEmail (some a))) = [e]) := by
  constructor
  · exact fun x => normalizeEmail_fix (some x)
  · intro l e hne hall
    apply jsSetDedup_const
    · intro hmap
      rcases l with _ | ⟨a, t⟩
      · exact hne rfl
      · simp at hmap
    · intro a ha
      obtain ⟨x, hx, rfl⟩ := List.mem_map.mp ha
      exact hall x hx

/-- Witness for C9 at a concrete family of spellings of one address. -/
theorem normalizeEmail_idempotent_witness :
    jsSetDedup
      ([codes " A@x.COM", codes "a@X.com  ", codes "a@x.com"].map
        (fun a => normalizeEmail (some a))) = [codes "a@x.com"] :=
  normalizeEmail_idempotent.2 _ _ (by decide) (by decide)

/-- Claim C3: every resolved recipient set is normalized (each address is a
fixed point of normalization and non-blank) and duplicate-free; a list of
variously-spelled copies of one address, from the explicit list or from
the directory (or both, in the pre-registration flow), resolves to that
address exactly once. -/
theorem recipientSet_invariant :
    (∀ (w : World) (r : NewProviderReq),
      (newProviderResolved w r).Nodup ∧
      ∀ a ∈ newProviderResolved w r, normalizeEmail (some a) = a ∧ a ≠ []) ∧
    (∀ (pe : Option JStr) (store : List AdminRecord) (df : Bool),
      (appointmentResolved pe store df).Nodup ∧
      ∀ a ∈ appointmentResolved pe store df, normalizeEmail (some a) = a ∧ a ≠ []) ∧
    (∀ (raws : List JStr) (e : JStr) (w : World) (r : NewProviderReq),
      r.adminEmails = some raws → raws ≠ [] → e ≠ [] →
      (∀ s ∈ raws, normalizeEmail (some s) = e) →
      newProviderResolved w r = [e]) ∧
    (∀ (pe : JStr) (store : List AdminRecord) (e : JStr),
      normalizeEmail (some pe) = e → e ≠ [] →
      (∀ d ∈ queryAdmins store, normalizeEmail d.correo = e) →
      appointmentResolved (some pe) store false = [e]) := by
  refine ⟨?_, ?_, ?_, ?_⟩
  · intro w r
    constructor
    · rw [newProviderResolved]
      by_cases hc : (clientAdminEmails r.adminEmails).isEmpty
      · rw [if_pos hc]; exact nodup_jsSetDedup _
      · rw [if_neg hc]; exact nodup_jsSetDedup _
    · exact fun a ha => mem_newProviderResolved ha
  · intro pe store df
    exact ⟨nodup_jsSetDedup _, fun a ha => mem_appointmentResolved ha⟩
  · intro raws e w r hre hraws he hall
    have hclient : clientAdminEmails r.adminEmails =
        raws.map (fun s => normalizeEmail (some s)) := by
      rw [hre, clientAdminEmails]
      apply List.filter_eq_self.mpr
      intro a ha
      obtain ⟨x, hx, rfl⟩ := List.mem_map.mp ha
      rw [hall x hx]
      exact (bnot_isEmpty_iff e).mpr he
    have hmapne : raws.map (fun s => normalizeEmail (some s)) ≠ [] := by
      rcases raws with _ | ⟨a, t⟩
      · exact absurd rfl hraws
      · simp
    have hne : clientAdminEmails r.adminEmails ≠ [] := by rw [hclient]; exact hmapne
    rw [newProviderResolved, if_neg (by rw [isEmpty_false_of_ne_nil hne]; simp)]
    rw [hclient]
    apply jsSetDedup_const _ _ hmapne
    intro a ha
    obtain ⟨x, hx, rfl⟩ := List.mem_map.mp ha
    exact hall x hx
  · intro pe store e hpe he hall
    rw [appointmentResolved]
    have hmem : ∀ a ∈ (normalizeEmail (some pe) ::
        (if false = true then [] else directoryAdminEmails store)).filter
          (fun x => !x.isEmpty), a = e := by
      intro a ha
      obtain ⟨hm, _⟩ := List.mem_filter.mp ha
      rcases List.mem_cons.mp hm with rfl | hd
      · exact hpe
      · simp only [if_neg (by simp : ¬(false = true))] at hd
        rw [directoryAdminEmails] at hd
        obtain ⟨hmm, _⟩ := List.mem_filter.mp hd
        obtain ⟨d, hdm, rfl⟩ := List.mem_map.mp hmm
        exact hall d hdm
    have hin : e ∈ (normalizeEmail (some pe) ::
        (if false = true then [] else directoryAdminEmails store)).filter
          (fun x => !x.isEmpty) := by
      apply List.mem_filter.mpr
      refine ⟨?_, (bnot_isEmpty_iff e).mpr he⟩
      rw [← hpe]
      exact List.mem_cons_self _ _
    exact jsSetDedup_const _ e (List.ne_nil_of_mem hin) hmem

/-- Witness for C3: the directory returns two spellings of one address;
the pre-registration flow resolves provider plus directory to one entry. -/
theorem recipientSet_invariant_witness :
    appointmentResolved (some (codes "a@x.com"))
      [⟨1, some (codes "a@x.com")⟩, ⟨2, some (codes "A@X.com")⟩] false =
      [codes "a@x.com"] :=
  recipientSet_invariant.2.2.2 _ _ _ (by decide) (by decide) (by decide)

/-- Given configuration, valid provider data and a live directory, the
new-provider handler issues the directory query exactly when the
normalized explicit list is empty. -/
theorem newProvider_queried_iff_empty (w : World) (r : NewProviderReq)
    (hconf : w.sendgridConfigured = true) (hdata : r.providerData ≠ none)
    (hdir : w.dirQueryFails = false) :
    (sendNewProviderEmail w r).directoryQueried =
      (clientAdminEmails r.adminEmails).isEmpty := by
  have hdn : r.providerData.isNone = false := by
    cases h : r.providerData
    · exact absurd h hdata
    · rfl
  rw [sendNewProviderEmail, hconf, hdn, hdir]
  simp only [Bool.not_true, Bool.and_false, Bool.false_eq_true, if_false]
  split_ifs <;> rfl

/-- Claim C1: in the new-provider flow, a non-empty normalized explicit
recipient list is used as-is (deduplicated) and no directory query is
issued; an empty or absent list triggers the directory query restricted
to role ids 1 and 2, whose normalized, blank-dropped, deduplicated
results are used instead. -/
theorem newProvider_recipient_policy (w : World) (r : NewProviderReq)
    (hconf : w.sendgridConfigured = true) (hdata : r.providerData ≠ none)
    (hdir : w.dirQueryFails = false) :
    (clientAdminEmails r.adminEmails ≠ [] →
      (sendNewProviderEmail w r).directoryQueried = false ∧
      newProviderResolved w r = jsSetDedup (clientAdminEmails r.adminEmails)) ∧
    (clientAdminEmails r.adminEmails = [] →
      (sendNewProviderEmail w r).directoryQueried = true ∧
      newProviderResolved w r =
        jsSetDedup
          (((w.adminStore.filter (fun a => decide (a.id = 1 ∨ a.id = 2))).map
              (fun d => normalizeEmail d.correo)).filter (fun e => !e.isEmpty))) := by
  have hq := newProvider_queried_iff_empty w r hconf hdata hdir
  constructor
  · intro hne
    have hie : (clientAdminEmails r.adminEmails).isEmpty = false :=
      isEmpty_false_of_ne_nil hne
    refine ⟨by rw [hq, hie], ?_⟩
    rw [newProviderResolved, hie]
    simp
  · intro heq
    have hie : (clientAdminEmails r.adminEmails).isEmpty = true :=
      isEmpty_true_of_eq_nil heq
    refine ⟨by rw [hq, hie], ?_⟩
    rw [newProviderResolved, hie]
    simp only [if_true]
    rw [directoryAdminEmails, queryAdmins_eq_role_set]

/-- Witness for C1 on the directory branch: no explicit list, so the
role-filtered directory is queried, normalized and deduplicated. -/
theorem newProvider_recipient_policy_witness :
    (sendNewProviderEmail wOk ⟨none, none, none, none, none, some provDataEx⟩).directoryQueried
        = true ∧
    newProviderResolved wOk ⟨none, none, none, none, none, some provDataEx⟩ =
      jsSetDedup
        (((wOk.adminStore.filter (fun a => decide (a.id = 1 ∨ a.id = 2))).map
            (fun d => normalizeEmail d.correo)).filter (fun e => !e.isEmpty)) :=
  (newProvider_recipient_policy wOk ⟨none, none, none, none, none, some provDataEx⟩
    (by decide) (by decide) (by decide)).2 (by decide)

/-- Claim C2: the valid pre-registration request always issues the
directory query; the resolved set is the deduplicated union of the
normalized provider address with the normalized directory results; a
directory failure does not fail the request (the handler proceeds with
the provider address alone), and an empty final set is caught by the
no-recipients check. -/
theorem appointment_recipient_resolution (w : World) (r : ApptReq) (c : Cita)
    (hconf : w.sendgridConfigured = true) (hc : r.cita = some c)
    (hpe : truthyStr r.providerEmail = true)
    (hf : truthyStr c.fecha = true) (hh : truthyStr c.hora = true) :
    (sendAppointmentNotification w r).directoryQueried = true ∧
    (∀ x : JStr,
      x ∈ appointmentResolved r.providerEmail w.adminStore false ↔
        ((x = normalizeEmail r.providerEmail ∨ x ∈ directoryAdminEmails w.adminStore) ∧
          x ≠ [])) ∧
    (w.dirQueryFails = true →
      (normalizeEmail r.providerEmail ≠ [] →
        appointmentResolved r.providerEmail w.adminStore true =
          [normalizeEmail r.providerEmail] ∧
        ∃ m, (sendAppointmentNotification w r).sent = some m ∧
          m.toAddr = [normalizeEmail r.providerEmail]) ∧
      (normalizeEmail r.providerEmail = [] →
        (sendAppointmentNotification w r).resp.status = 500 ∧
        (sendAppointmentNotification w r).sent = none)) := by
  have hval : (truthyStr r.providerEmail && truthyStr c.fecha && truthyStr c.hora) = true := by
    rw [hpe, hf, hh]; rfl
  have hout : sendAppointmentNotification w r =
      (if (appointmentResolved r.providerEmail w.adminStore w.dirQueryFails).isEmpty then
        ⟨⟨500, false, "No se encontraron correos configurados para notificar la cita."⟩,
          none, true⟩
      else if w.providerAccepts then
        ⟨⟨200, true, "Notificación de cita enviada correctamente."⟩, some (apptMsgOf w r c), true⟩
      else
        ⟨⟨500, false, "Ocurrió un error al enviar la notificación de cita."⟩,
          some (apptMsgOf w r c), true⟩) := by
    rw [sendAppointmentNotification, hconf, hc]
    simp only [Bool.not_true, Bool.false_eq_true, if_false, hval, Bool.not_true]
  refine ⟨?_, ?_, ?_⟩
  · rw [hout]; split_ifs <;> rfl
  · intro x
    rw [appointmentResolved, mem_jsSetDedup, List.mem_filter, List.mem_cons,
      bnot_isEmpty_iff]
    simp
  · intro hdf
    constructor
    · intro hpne
      have hres : appointmentResolved r.providerEmail w.adminStore true =
          [normalizeEmail r.providerEmail] := by
        rw [appointmentResolved]
        rw [if_pos rfl]
        rw [List.filter_cons_of_pos (by rw [(bnot_isEmpty_iff _).mpr hpne])]
        rfl
      refine ⟨hres, ?_⟩
      refine ⟨apptMsgOf w r c, ?_, ?_⟩
      · rw [hout, hdf]
        rw [if_neg (by rw [hres]; simp)]
        split_ifs <;> rfl
      · show appointmentResolved r.providerEmail w.adminStore w.dirQueryFails = _
        rw [hdf, hres]
    · intro hpnil
      have hres : appointmentResolved r.providerEmail w.adminStore true = [] := by
        rw [appointmentResolved, if_pos rfl,
          List.filter_cons_of_neg (by rw [hpnil]; decide)]
        rfl
      rw [hout, hdf, if_pos (by rw [hres]; rfl)]
      exact ⟨rfl, rfl⟩

/-- Witness for C2 in a world whose directory query throws: the provider
address alone is resolved and the delivery call is still made. -/
theorem appointment_recipient_resolution_witness :
    appointmentResolved (some (codes " Prov@Z.com ")) wDirFail.adminStore true =
      [codes "prov@z.com"] ∧
    ∃ m, (sendAppointmentNotification wDirFail
        ⟨some (codes " Prov@Z.com "), none, none, none, none, some citaEx⟩).sent = some m ∧
      m.toAddr = [codes "prov@z.com"] := by
  have h := (appointment_recipient_resolution wDirFail
    ⟨some (codes " Prov@Z.com "), none, none, none, none, some citaEx⟩ citaEx
    (by decide) (by decide) (by decide) (by decide) (by decide)).2.2 (by decide)
  obtain ⟨hres, m, hs, ht⟩ := h.1 (by decide)
  exact ⟨hres.trans (by decide), m, hs, ht.trans (by decide)⟩

/-- Claim C6: whenever the final deduplicated recipient set is empty, the
new-provider and pre-registration flows respond HTTP 500 (not 400) and
make no delivery call. -/
theorem noRecipients_http500 :
    (∀ (w : World) (r : NewProviderReq),
      w.sendgridConfigured = true → r.providerData ≠ none → w.dirQueryFails = false →
      newProviderResolved w r = [] →
      (sendNewProviderEmail w r).resp.status = 500 ∧
      (sendNewProviderEmail w r).resp.status ≠ 400 ∧
      (sendNewProviderEmail w r).sent = none) ∧
    (∀ (w : World) (r : ApptReq) (c : Cita),
      w.sendgridConfigured = true → r.cita = some c →
      truthyStr r.providerEmail = true → truthyStr c.fecha = true →
      truthyStr c.hora = true →
      appointmentResolved r.providerEmail w.adminStore w.dirQueryFails = [] →
      (sendAppointmentNotification w r).resp.status = 500 ∧
      (sendAppointmentNotification w r).resp.status ≠ 400 ∧
      (sendAppointmentNotification w r).sent = none) := by
  constructor
  · intro w r hconf hdata hdir hres
    have hdn : r.providerData.isNone = false := by
      cases h : r.providerData
      · exact absurd h hdata
      · rfl
    have hout : sendNewProviderEmail w r =
        ⟨⟨500, false, "Los administradores no tienen correo configurado."⟩, none,
          (clientAdminEmails r.adminEmails).isEmpty⟩ := by
      rw [sendNewProviderEmail, hconf, hdn, hdir]
      simp only [Bool.not_true, Bool.and_false, Bool.false_eq_true, if_false]
      rw [if_pos (by rw [hres]; rfl)]
    rw [hout]
    exact ⟨rfl, by simp, rfl⟩
  · intro w r c hconf hc hpe hf hh hres
    have hval : (truthyStr r.providerEmail && truthyStr c.fecha && truthyStr c.hora) = true := by
      rw [hpe, hf, hh]; rfl
    have hout : sendAppointmentNotification w r =
        ⟨⟨500, false, "No se encontraron correos configurados para notificar la cita."⟩,
          none, true⟩ := by
      rw [sendAppointmentNotification, hconf, hc]
      simp only [Bool.not_true, Bool.false_eq_true, if_false, hval]
      rw [if_pos (by rw [hres]; rfl)]
    rw [hout]
    exact ⟨rfl, by simp, rfl⟩

/-- Witness for C6: directory without usable addresses for roles 1 and 2,
no explicit list, whitespace-only provider address. -/
theorem noRecipients_http500_witness :
    (sendNewProviderEmail ⟨true, [⟨1, none⟩, ⟨2, some (codes "   ")⟩], false, none, true⟩
        ⟨none, none, none, none, none, some provDataEx⟩).resp.status = 500 ∧
    (sendNewProviderEmail ⟨true, [⟨1, none⟩, ⟨2, some (codes "   ")⟩], false, none, true⟩
        ⟨none, none, none, none, none, some provDataEx⟩).resp.status ≠ 400 ∧
    (sendNewProviderEmail ⟨true, [⟨1, none⟩, ⟨2, some (codes "   ")⟩], false, none, true⟩
        ⟨none, none, none, none, none, some provDataEx⟩).sent = none :=
  noRecipients_http500.1 _ _ (by decide) (by decide) (by decide) (by decide)

/-- Claim C4 counterexample: the confirmation flow interpolates the notes
into the HTML body with left angle brackets intact (no escaping there),
and the pre-registration flow leaves newlines in the notes unconverted. -/
theorem notes_escaping_cex :
    confirmNotesHtml (some (codes "<script>")) = codes "<script>" ∧
    (60 : Nat) ∈ confirmNotesHtml (some (codes "<script>")) ∧
    preRegNotesHtml (some (codes "linea1\nlinea2")) = codes "linea1\nlinea2" := by
  refine ⟨by decide, by decide, by decide⟩

/-- Claim C4 amended: the pre-registration HTML body escapes every left
angle bracket of the notes to the HTML entity, leaving newlines as-is
(and that flow has no plain-text body); the confirmation flow converts
newlines of the notes to HTML line breaks in the HTML body without
angle-bracket escaping, while its plain-text body carries the notes
unmodified. -/
theorem notes_escaping_amended :
    (∀ n : Option JStr, (60 : Nat) ∉ preRegNotesHtml n) ∧
    (∀ n : JStr, n ≠ [] → (preRegNotesHtml (some n)).count 10 = n.count 10) ∧
    (∀ n : JStr, n ≠ [] → confirmNotesHtml (some n) = replaceAll 10 (codes "<br>") n) ∧
    (∀ n : Option JStr, (10 : Nat) ∉ confirmNotesHtml n) ∧
    (∀ n : JStr, n ≠ [] → confirmNotesText (some n) = n) := by
  refine ⟨?_, ?_, ?_, ?_, ?_⟩
  · intro n
    rw [preRegNotesHtml]
    split
    · decide
    · exact not_mem_replaceAll 60 _ (by decide) _
  · intro n hn
    have hne : replaceAll 60 (codes "&lt;") ((some n).getD []) ≠ [] :=
      replaceAll_ne_nil 60 _ (by decide) n hn
    rw [preRegNotesHtml, if_neg (by rw [isEmpty_false_of_ne_nil hne]; simp)]
    exact count_replaceAll 60 _ 10 (by decide) (by decide) n
  · intro n hn
    have hne : replaceAll 10 (codes "<br>") n ≠ [] :=
      replaceAll_ne_nil 10 _ (by decide) n hn
    rw [confirmNotesHtml, if_neg (by rw [isEmpty_false_of_ne_nil hn]; simp),
      if_neg (by rw [isEmpty_false_of_ne_nil hne]; simp)]
  · intro n
    cases n with
    | none => decide
    | some m =>
      rw [confirmNotesHtml]
      split
      · decide
      · split
        · decide
        · exact not_mem_replaceAll 10 _ (by decide) _
  · intro n hn
    simp only [confirmNotesText, Option.getD_some]
    rw [if_neg (by rw [isEmpty_false_of_ne_nil hn]; simp)]

/-- Witness for the amended C4 on concrete notes with an angle bracket and
a newline. -/
theorem notes_escaping_amended_witness :
    confirmNotesHtml (some (codes "linea <a>\nsegunda")) =
      replaceAll 10 (codes "<br>") (codes "linea <a>\nsegunda") ∧
    confirmNotesText (some (codes "linea <a>\nsegunda")) = codes "linea <a>\nsegunda" :=
  ⟨notes_escaping_amended.2.2.1 _ (by decide),
    notes_escaping_amended.2.2.2.2 _ (by decide)⟩

/-- Claim C5: a failure to read the bundled PDF does not abort the
confirmation flow: the delivery call is still made, the outgoing message
carries no attachments, and on provider acceptance the response is the
HTTP 200 success acknowledgment. -/
theorem confirm_attachment_degradation (w : World) (r : ConfirmReq) (d : DatosCita)
    (hconf : w.sendgridConfigured = true) (hd : r.datosCita = some d)
    (hto : truthyStr r.toAddr = true) (hfolio : truthyStr r.folio = true)
    (hpdf : w.pdfRead = none) (hacc : w.providerAccepts = true) :
    (sendCitaConfirmacion w r).resp =
      ⟨200, true, "Correo de confirmación de cita enviado correctamente."⟩ ∧
    (sendCitaConfirmacion w r).sent = some (confirmMsgOf w r d) ∧
    (confirmMsgOf w r d).attachments? = none := by
  have hval : (truthyStr r.toAddr && truthyStr r.folio) = true := by
    rw [hto, hfolio]; rfl
  have hout : sendCitaConfirmacion w r =
      ⟨⟨200, true, "Correo de confirmación de cita enviado correctamente."⟩,
        some (confirmMsgOf w r d), false⟩ := by
    rw [sendCitaConfirmacion, hconf, hd]
    simp only [Bool.not_true, Bool.false_eq_true, if_false, hval, hacc, if_true]
  refine ⟨by rw [hout], by rw [hout], ?_⟩
  rw [confirmMsgOf, hpdf]
  rfl

/-- Witness for C5: unreadable PDF, accepted delivery, zero attachments. -/
theorem confirm_attachment_degradation_witness :
    (sendCitaConfirmacion wNoPdf
        ⟨some (codes "prov@z.com"), some (codes "F-100"), none, some datosCitaEx⟩).resp =
      ⟨200, true, "Correo de confirmación de cita enviado correctamente."⟩ ∧
    (sendCitaConfirmacion wNoPdf
        ⟨some (codes "prov@z.com"), some (codes "F-100"), none, some datosCitaEx⟩).sent =
      some (confirmMsgOf wNoPdf
        ⟨some (codes "prov@z.com"), some (codes "F-100"), none, some datosCitaEx⟩
        datosCitaEx) ∧
    (confirmMsgOf wNoPdf
        ⟨some (codes "prov@z.com"), some (codes "F-100"), none, some datosCitaEx⟩
        datosCitaEx).attachments? = none :=
  confirm_attachment_degradation wNoPdf
    ⟨some (codes "prov@z.com"), some (codes "F-100"), none, some datosCitaEx⟩
    datosCitaEx (by decide) (by decide) (by decide) (by decide) (by decide) (by decide)

/-- The scenario request of claim C7. -/
def credReqEx : CredReq :=
  ⟨some (codes "  User@X.com "), some (codes "jdoe"), some (codes "p@ss1"),
    some (codes "")⟩

set_option maxRecDepth 8000 in
/-- Claim C7: a blank or absent role always renders as the fallback role
name Usuario; on the scenario request the single recipient resolves to
user@x.com and, on provider acceptance, the response is HTTP 200 with the
credentials success message. -/
theorem accessCredentials_role_fallback (w : World)
    (hconf : w.sendgridConfigured = true) (hacc : w.providerAccepts = true) :
    (∀ rol : Option JStr, jsTrim (rol.getD []) = [] → rolFinal rol = codes "Usuario") ∧
    (sendAccessCredentials w credReqEx).resp =
      ⟨200, true, "Correo de credenciales enviado correctamente."⟩ ∧
    (sendAccessCredentials w credReqEx).sent =
      some ⟨codes "user@x.com",
        credHtmlBody (codes "jdoe") (codes "p@ss1") (codes "Usuario")⟩ := by
  have hout : sendAccessCredentials w credReqEx =
      ⟨⟨200, true, "Correo de credenciales enviado correctamente."⟩,
        some ⟨normalizeEmail credReqEx.toAddr,
          credHtmlBody (jsTrim (credReqEx.usuario.getD []))
            (jsTrim (credReqEx.contrasena.getD [])) (rolFinal credReqEx.rol)⟩,
        false⟩ := by
    rw [sendAccessCredentials, hconf, hacc]
    simp only [Bool.not_true, Bool.false_eq_true, if_false, if_true]
    rw [if_neg (by decide), if_neg (by decide)]
  refine ⟨?_, ?_, ?_⟩
  · intro rol h
    rw [rolFinal, if_pos (by rw [h]; rfl)]
  · rw [hout]
  · rw [hout]
    have heq : (⟨normalizeEmail credReqEx.toAddr,
        credHtmlBody (jsTrim (credReqEx.usuario.getD []))
          (jsTrim (credReqEx.contrasena.getD [])) (rolFinal credReqEx.rol)⟩ : CredMsg) =
        ⟨codes "user@x.com",
          credHtmlBody (codes "jdoe") (codes "p@ss1") (codes "Usuario")⟩ := by decide
    rw [heq]

/-- Witness for C7 in the all-working world. -/
theorem accessCredentials_role_fallback_witness :
    rolFinal (some (codes "")) = codes "Usuario" ∧
    (sendAccessCredentials wOk credReqEx).resp =
      ⟨200, true, "Correo de credenciales enviado correctamente."⟩ :=
  ⟨(accessCredentials_role_fallback wOk (by decide) (by decide)).1 _ (by decide),
    (accessCredentials_role_fallback wOk (by decide) (by decide)).2.1⟩

/-- Claim C8 counterexample: a boolean true in the collects-a-box field
renders raw in both flows, because the slot only falls back on falsy
values. -/
theorem flag_rendering_cex :
    preRegRecolectaSlot (JsVal.jbool true) = codes "true" ∧
    confirmRecolectaSlot (JsVal.jbool true) = codes "true" := by
  refine ⟨by decide, by decide⟩

/-- Claim C8 amended: the is-Sunday flag always renders as one of its two
fixed yes/no strings; the collects-a-box slots render the raw field value
whenever it is truthy (a boolean true renders as the string true) and
fall back to No (pre-registration) or to the dash placeholder
(confirmation) only on falsy values. -/
theorem flag_rendering_amended :
    (∀ v : JsVal, esDomingoSlot v = codes "Sí, requiere aprobación especial" ∨
      esDomingoSlot v = codes "No") ∧
    (∀ v : JsVal, jsTruthy v = false →
      preRegRecolectaSlot v = codes "No" ∧ confirmRecolectaSlot v = codes "-") ∧
    (∀ v : JsVal, jsTruthy v = true →
      preRegRecolectaSlot v = jsToString v ∧ confirmRecolectaSlot v = jsToString v) := by
  refine ⟨?_, ?_, ?_⟩
  · intro v
    rw [esDomingoSlot]
    by_cases h : jsTruthy v = true
    · left; rw [if_pos h]
    · right; rw [if_neg h]
  · intro v h
    have hn : ¬(jsTruthy v = true) := by rw [h]; simp
    exact ⟨by rw [preRegRecolectaSlot, jsOr, if_neg hn]; rfl,
      by rw [confirmRecolectaSlot, jsOr, if_neg hn]; rfl⟩
  · intro v h
    exact ⟨by rw [preRegRecolectaSlot, jsOr, if_pos h],
      by rw [confirmRecolectaSlot, jsOr, if_pos h]⟩

/-- Witness for the amended C8 at a truthy string value and a falsy one. -/
theorem flag_rendering_amended_witness :
    (preRegRecolectaSlot (JsVal.jstr (codes "Sí")) =
        jsToString (JsVal.jstr (codes "Sí")) ∧
      confirmRecolectaSlot (JsVal.jstr (codes "Sí")) =
        jsToString (JsVal.jstr (codes "Sí"))) ∧
    (preRegRecolectaSlot JsVal.undef = codes "No" ∧
      confirmRecolectaSlot JsVal.undef = codes "-") :=
  ⟨flag_rendering_amended.2.2 _ (by decide), flag_rendering_amended.2.1 _ (by decide)⟩

/-- Claim C10: the confirmation endpoint validates the raw recipient field,
so a whitespace-only address passes validation and the delivery call is
attempted with the empty normalized recipient; the credentials endpoint
validates the normalized value and rejects the same address with HTTP 400
before any delivery call. -/
theorem confirm_validates_raw_to (w : World) (r : ConfirmReq) (cred : CredReq)
    (t : JStr) (d : DatosCita)
    (hconf : w.sendgridConfigured = true)
    (hrt : r.toAddr = some t) (hne : t ≠ []) (hws : jsTrim t = [])
    (hrf : truthyStr r.folio = true) (hrd : r.datosCita = some d)
    (hct : cred.toAddr = some t) :
    (∃ m, (sendCitaConfirmacion w r).sent = some m ∧ m.toAddr = []) ∧
    (sendCitaConfirmacion w r).resp.status ≠ 400 ∧
    (sendAccessCredentials w cred).resp =
      ⟨400, false, "Falta el correo del usuario."⟩ ∧
    (sendAccessCredentials w cred).sent = none := by
  have htr : truthyStr r.toAddr = true := by
    rw [hrt]
    show (!t.isEmpty) = true
    rw [isEmpty_false_of_ne_nil hne]
    rfl
  have hnorm : normalizeEmail r.toAddr = [] := by
    rw [hrt]
    show jsToLower (jsTrim t) = []
    rw [hws]
    rfl
  have hval : (truthyStr r.toAddr && truthyStr r.folio) = true := by
    rw [htr, hrf]; rfl
  have hcnorm : normalizeEmail cred.toAddr = [] := by
    rw [hct]
    show jsToLower (jsTrim t) = []
    rw [hws]
    rfl
  have hcout : sendAccessCredentials w cred =
      ⟨⟨400, false, "Falta el correo del usuario."⟩, none, false⟩ := by
    rw [sendAccessCredentials, hconf]
    simp only [Bool.not_true, Bool.false_eq_true, if_false]
    rw [if_pos (by rw [hcnorm]; rfl)]
  by_cases hacc : w.providerAccepts = true
  · have hout : sendCitaConfirmacion w r =
        ⟨⟨200, true, "Correo de confirmación de cita enviado correctamente."⟩,
          some (confirmMsgOf w r d), false⟩ := by
      rw [sendCitaConfirmacion, hconf, hrd]
      simp only [Bool.not_true, Bool.false_eq_true, if_false, hval, hacc, if_true]
    refine ⟨⟨confirmMsgOf w r d, by rw [hout], ?_⟩, by rw [hout]; simp, hcout ▸ rfl, hcout ▸ rfl⟩
    show normalizeEmail r.toAddr = []
    exact hnorm
  · have hacc' : w.providerAccepts = false := by
      cases h : w.providerAccepts
      · rfl
      · exact absurd h hacc
    have hout : sendCitaConfirmacion w r =
        ⟨⟨500, false, "Ocurrió un error al enviar la confirmación de cita."⟩,
          some (confirmMsgOf w r d), false⟩ := by
      rw [sendCitaConfirmacion, hconf, hrd]
      simp only [Bool.not_true, Bool.false_eq_true, if_false, hval, hacc', if_true]
    refine ⟨⟨confirmMsgOf w r d, by rw [hout], ?_⟩, by rw [hout]; simp, hcout ▸ rfl, hcout ▸ rfl⟩
    show normalizeEmail r.toAddr = []
    exact hnorm

/-- Witness for C10 at the whitespace-only address. -/
theorem confirm_validates_raw_to_witness :
    (∃ m, (sendCitaConfirmacion wOk
        ⟨some (codes "   "), some (codes "F-100"), none, some datosCitaEx⟩).sent =
          some m ∧ m.toAddr = []) ∧
    (sendCitaConfirmacion wOk
        ⟨some (codes "   "), some (codes "F-100"), none, some datosCitaEx⟩).resp.status ≠
      400 ∧
    (sendAccessCredentials wOk
        ⟨some (codes "   "), some (codes "jdoe"), some (codes "p@ss1"), none⟩).resp =
      ⟨400, false, "Falta el correo del usuario."⟩ ∧
    (sendAccessCredentials wOk
        ⟨some (codes "   "), some (codes "jdoe"), some (codes "p@ss1"), none⟩).sent =
      none :=
  confirm_validates_raw_to wOk
    ⟨some (codes "   "), some (codes "F-100"), none, some datosCitaEx⟩
    ⟨some (codes "   "), some (codes "jdoe"), some (codes "p@ss1"), none⟩
    (codes "   ") datosCitaEx (by decide) (by decide) (by decide) (by decide)
    (by decide) (by decide) (by decide)

end Transportes
